import Mathlib

/-!
Verification of the `mkimg` build-context resolver (`src/mkimg/src/build.rs`)
of the composite component-system image builder.

The Rust code is shallowly embedded: the input `Component` records (produced
by the out-of-scope specification parser) become a Lean structure; the
two resolution passes, validation, command synthesis and packaging become
pure Lean functions.  Rust panics (`assert!`, `unwrap`) are modelled by
`Option`: `none` means the corresponding Rust code panics.  The
compile-time environment (`env!("PWD")`) and the process id are passed as
explicit parameters.
-/

namespace Mkimg

/-- Modelled from the spec: a declared export of the input model — an
(interface, optional-variant) pair (the `interfaces()` accessor of the
external `cossystem::Component`). -/
structure IfDecl where
  interface : String
  variant : Option String
  deriving Repr, DecidableEq

/-- Modelled from the spec: a declared dependency record {interface,
server-name} of the input model (the `deps()` accessor of the external
`cossystem::Component`). -/
structure DepDecl where
  interface : String
  srv : String
  deriving Repr, DecidableEq

/-- Modelled from the spec: a declared startup parameter {name, value} of
the input model (the `params()` accessor of the external
`cossystem::Component`). -/
structure ParamDecl where
  name : String
  value : String
  deriving Repr, DecidableEq

/-- Modelled from the spec: the component specification of the input model
(external, read-only): unique name, implementation identifier (`img`),
optional fixed base address, ordered export list, ordered dependency list,
optional ordered startup-parameter list. -/
structure Component where
  name : String
  img : String
  baseaddr : Option String
  interfaces : List IfDecl
  deps : List DepDecl
  params : Option (List ParamDecl)
  deriving Repr, DecidableEq

/-- Modelled from the spec: the key/value tree of the external `initargs`
crate (`ArgsKV`): a node is either a single key/value leaf or a named
array of child nodes. -/
inductive ArgsKV where
  | key (name value : String) : ArgsKV
  | arr (name : String) (children : List ArgsKV) : ArgsKV
  deriving Repr

/-- Modelled from the spec: `ArgsKV::new_key`. -/
def ArgsKV.new_key (name value : String) : ArgsKV := ArgsKV.key name value

/-- Modelled from the spec: `ArgsKV::new_arr`. -/
def ArgsKV.new_arr (name : String) (children : List ArgsKV) : ArgsKV :=
  ArgsKV.arr name children

/-- Modelled from the spec: `ArgsKV::new_top` wraps the tree once more in a
top-level array node. -/
def ArgsKV.new_top (children : List ArgsKV) : ArgsKV :=
  ArgsKV.arr "args" children

/-- The per-component build context (struct `ComponentContext`). -/
structure ComponentContext where
  comp_name : String
  comp_if : String
  var_name : String
  base_addr : String
  initfs : Option String
  params : Option ArgsKV
  interface_exports : List (String × String)
  interface_deps : List (String × String × String)
  interface_servers : List (String × String)
  library_deps : List String
  deriving Repr

/-- Split a character list at every occurrence of the separator; models
Rust's `str::split(char)` (always at least one, possibly empty,
segment). -/
def splitChar (sep : Char) : List Char → List (List Char)
  | [] => [[]]
  | c :: rest =>
    match splitChar sep rest with
    | [] => [[]]
    | seg :: segs =>
      if c = sep then [] :: seg :: segs else (c :: seg) :: segs

/-- Function `comp_interface_name`: split the implementation identifier at
`.` (Rust `img.split('.').collect()`) into (interface, implementation
name).  The Rust `assert!(if_name.len() == 2)` panic is modelled by
`none`. -/
def comp_interface_name (img : String) : Option (String × String) :=
  let if_name := (splitChar '.' img.data).map String.mk
  match if_name with
  | [i, n] => some (i, n)
  | _ => none

/-- Constructor `ComponentContext::new_minimal`. -/
def ComponentContext.new_minimal (interface name varname : String) :
    ComponentContext :=
  { comp_name := name
    comp_if := interface
    var_name := varname
    base_addr := "0x00400000"
    initfs := none
    params := none
    interface_exports := []
    interface_deps := []
    interface_servers := []
    library_deps := [] }

/-- Constructor `ComponentContext::new` (resolution pass one): derive the
context from one component's own specification.  `none` models the panic
of `comp_interface_name`'s assert. -/
def ComponentContext.new (comp : Component) : Option ComponentContext :=
  match comp_interface_name comp.img with
  | none => none
  | some (interface, name) =>
    let c0 := ComponentContext.new_minimal interface name comp.name
    let c1 := match comp.baseaddr with
      | some s => { c0 with base_addr := s }
      | none => c0
    let found_if := comp.interfaces.any (fun ifs => ifs.interface == interface)
    let exports0 := comp.interfaces.map
      (fun ifs => (ifs.interface, ifs.variant.getD "stubs"))
    let exports :=
      if !found_if && interface != "tests" && interface != "no_interface" then
        exports0 ++ [(interface, "stubs")]
      else exports0
    let servers := comp.deps.map (fun dep => (dep.interface, dep.srv))
    let kvs := (comp.params.getD []).map
      (fun p => ArgsKV.new_key p.name p.value)
    some { c1 with
            interface_exports := exports
            interface_servers := servers
            params := some (ArgsKV.new_arr "params" kvs) }

/-- Method `ComponentContext::validate_deps`. -/
def ComponentContext.validate_deps (c : ComponentContext) :
    Except String Unit :=
  if c.interface_deps.length != c.interface_servers.length then
    Except.error ("Component " ++ c.var_name ++ " (implementation: "
      ++ c.comp_name
      ++ ") has dependencies that are not satisfied by stated dependencies:"
      ++ "\n\tDependencies " ++ reprStr c.interface_servers
      ++ "\n\tProvided " ++ reprStr c.interface_deps)
  else
    Except.ok ()

/-- Function `comp_obj_name`: the canonical object name
`interface.implementation.varname`. -/
def comp_obj_name (interface comp_impl varname : String) : String :=
  interface ++ "." ++ comp_impl ++ "." ++ varname

/-- Function `comp_build_obj_path`: build directory prefixed to the
canonical object name. -/
def comp_build_obj_path (builddir interface comp_impl varname : String) :
    String :=
  builddir ++ comp_obj_name interface comp_impl varname

/-- The whole-system build context (struct `BuildContext`).  The
`BTreeMap<String, ComponentContext>` is modelled as an association list
kept sorted by key (see `mapInsert`/`mapLookup`), which reproduces the
map's insert-or-replace behaviour and its sorted iteration order. -/
structure BuildContext where
  comps : List (String × ComponentContext)
  booter : String
  builddir : String
  deriving Repr

/-- Lexicographic order on character lists (the order of Rust `String`
keys in a `BTreeMap`: UTF-8 byte order coincides with code-point
order). -/
def lexLt : List Char → List Char → Bool
  | [], [] => false
  | [], _ :: _ => true
  | _ :: _, [] => false
  | c :: cs, d :: ds =>
    if c < d then true else if d < c then false else lexLt cs ds

/-- Lexicographic order on strings. -/
def strLt (a b : String) : Bool := lexLt a.data b.data

/-- Insert-or-replace into the key-sorted association list modelling the
`BTreeMap`. -/
def mapInsert (k : String) (v : ComponentContext) :
    List (String × ComponentContext) → List (String × ComponentContext)
  | [] => [(k, v)]
  | (k', v') :: rest =>
    if strLt k k' then (k, v) :: (k', v') :: rest
    else if k == k' then (k, v) :: rest
    else (k', v') :: mapInsert k v rest

/-- Lookup in the association list modelling the `BTreeMap` (`comps.get`). -/
def mapLookup (m : List (String × ComponentContext)) (k : String) :
    Option ComponentContext :=
  (m.find? (fun p => p.1 == k)).map (fun p => p.2)

/-- The linear scan of `BuildContext::new` locating the server component
named `s` (`for srv in comps.iter() { if *srv.name() == dep.srv ... }`). -/
def findSrv (comps : List Component) (s : String) : Option Component :=
  comps.find? (fun c => c.name == s)

/-- The body of the pass-two loop of `BuildContext::new` for one declared
dependency record: locate the server, scan its declared exports for the
first interface match (using its variant, default `stubs`), else fall back
to the server's primary interface with the default variant.  Result
`some none` means the dependency is dropped (no triple); `some (some t)`
means the triple `t` is pushed; `none` models the panic of the
`comp_interface_name` assert in the fallback step. -/
def resolveDep (comps : List Component) (dep : DepDecl) :
    Option (Option (String × String × String)) :=
  match findSrv comps dep.srv with
  | none => some none
  | some srv =>
    match srv.interfaces.find? (fun inter => inter.interface == dep.interface) with
    | some inter =>
      some (some (inter.interface, dep.srv, inter.variant.getD "stubs"))
    | none =>
      match comp_interface_name srv.img with
      | none => none
      | some (interface, _) =>
        if interface == dep.interface then
          some (some (interface, dep.srv, "stubs"))
        else
          some none

/-- Pass two over one component's declared dependency list: each record
contributes at most one triple, in declaration order; `none` propagates a
panic from `resolveDep`. -/
def passTwo (comps : List Component) : List DepDecl →
    Option (List (String × String × String))
  | [] => some []
  | dep :: rest =>
    match resolveDep comps dep with
    | none => none
    | some t =>
      match passTwo comps rest with
      | none => none
      | some ts => some (t.toList ++ ts)

/-- One iteration of the component loop of `BuildContext::new`: pass one
(`ComponentContext::new`) followed by pass two filling `interface_deps`. -/
def buildComponentContext (comps : List Component) (c : Component) :
    Option ComponentContext :=
  match ComponentContext.new c with
  | none => none
  | some ctxt =>
    match passTwo comps c.deps with
    | none => none
    | some triples => some { ctxt with interface_deps := triples }

/-- The component loop of `BuildContext::new`, inserting each component's
context into the map under its variable name. -/
def buildLoop (comps : List Component) : List Component →
    List (String × ComponentContext) →
    Option (List (String × ComponentContext))
  | [], m => some m
  | c :: rest, m =>
    match buildComponentContext comps c with
    | none => none
    | some ctxt => buildLoop comps rest (mapInsert c.name ctxt m)

/-- Constructor `BuildContext::new`.  `pwd` stands for the compile-time
`env!("PWD")` and `pid` for `process::id()`; `none` models a panic in one
of the resolution passes. -/
def BuildContext.new (comps : List Component) (booter : String)
    (pwd : String) (pid : Nat) : Option BuildContext :=
  match buildLoop comps comps [] with
  | none => none
  | some m =>
    some { comps := m
           booter := booter
           builddir := pwd ++ "/cos_build_" ++ toString pid ++ "/" }

/-- Method `BuildContext::validate_deps`: collect every failing
component's message and concatenate them; `Ok` when none fail. -/
def BuildContext.validate_deps (bc : BuildContext) : Except String Unit :=
  let errs := bc.comps.filterMap (fun p =>
    match p.2.validate_deps with
    | Except.ok _ => none
    | Except.error s => some s)
  if errs.length == 0 then
    Except.ok ()
  else
    Except.error (errs.foldl (fun agg e => agg ++ e) "")

/-- The export-list fold of `comp_gen_make_cmd`: starting from
`(true, "")`, append `+` before every pair but the first, then
`interface`, `/`, `variant`. -/
def renderExports (l : List (String × String)) : String :=
  (l.foldl
    (fun acc p =>
      let ifpath := acc.2
      let ifpath := if !acc.1 then ifpath ++ "+" else ifpath
      let ifpath := ifpath ++ p.1
      let ifpath := ifpath ++ "/"
      let ifpath := ifpath ++ p.2
      (false, ifpath))
    (true, "")).2

/-- The dependency-list fold of `comp_gen_make_cmd` over the
(interface, server, variant) triples, rendering interface and variant and
ignoring the server. -/
def renderDeps (l : List (String × String × String)) : String :=
  (l.foldl
    (fun acc t =>
      let ifpath := acc.2
      let ifpath := if !acc.1 then ifpath ++ "+" else ifpath
      let ifpath := ifpath ++ t.1
      let ifpath := ifpath ++ "/"
      let ifpath := ifpath ++ t.2.2
      (false, ifpath))
    (true, "")).2

/-- Function `BuildContext::comp_gen_make_cmd`: the synthesized `make`
invocation string for one component. -/
def comp_gen_make_cmd (c : ComponentContext) (builddir : String)
    (initargsfile tarfile : Option String) : String :=
  let ifs := renderExports c.interface_exports
  let if_deps := renderDeps c.interface_deps
  let optional_cmds :=
    (match initargsfile with
     | some s => "COMP_INITARGS_FILE=" ++ s ++ " "
     | none => "")
    ++
    (match tarfile with
     | some s => "COMP_TAR_FILE=" ++ s ++ " "
     | none => "")
  "make -C ../ COMP_INTERFACES=\"" ++ ifs
    ++ "\" COMP_IFDEPS=\"" ++ if_deps
    ++ "\" COMP_INTERFACE=" ++ c.comp_if
    ++ " COMP_NAME=" ++ c.comp_name
    ++ " COMP_VARNAME=" ++ c.var_name
    ++ " COMP_OUTPUT="
    ++ comp_build_obj_path builddir c.comp_if c.comp_name c.var_name
    ++ " COMP_BASEADDR=" ++ c.base_addr
    ++ " " ++ optional_cmds ++ " component"

/-- Method `BuildContext::refresh_build_dir`: attempt to reset the build
directory (the external `reset_dir`, modelled by the oracle `rd`, where
`rd n dir` is the outcome of the n-th reset attempt on `dir`; the code
performs exactly one attempt); on failure fall back to the current working
directory with a trailing slash. -/
def refresh_build_dir (rd : Nat → String → Except String Unit)
    (pwd : String) (bc : BuildContext) : BuildContext :=
  match rd 0 bc.builddir with
  | Except.ok _ => bc
  | Except.error _ => { bc with builddir := pwd ++ "/" }

/-- Method `BuildContext::build_components`: refresh the build directory,
then for each component (in map order) generate the initargs file exactly
when `params` is present, synthesize the make command with that optional
file and no tar file, and execute it.  The model returns the refreshed
context together with, per component, its name, the initargs path written
(if any), and the command string. -/
def build_components (rd : Nat → String → Except String Unit)
    (pwd : String) (bc : BuildContext) :
    BuildContext × List (String × Option String × String) :=
  let bc1 := refresh_build_dir rd pwd bc
  let entries := bc1.comps.map (fun p =>
    let c := p.2
    let comp_path := comp_build_obj_path bc1.builddir c.comp_if c.comp_name
      c.var_name
    let initargs_path : Option String :=
      match c.params with
      | some _ => some (comp_path ++ "_initargs.c")
      | none => none
    let cmd := comp_gen_make_cmd c bc1.builddir initargs_path none
    (p.1, initargs_path, cmd))
  (bc1, entries)

/-- An entry of the tar archive produced by the external `tar::Builder`:
either a directory entry or a file entry with its byte content. -/
inductive TarEntry where
  | dir (name : String) : TarEntry
  | file (name : String) (content : List Nat) : TarEntry
  deriving Repr, DecidableEq

/-- The per-file loop of `BuildContext::tarball_create`: open each listed
path (`fs` is the file system; `none` models the `File::open(..).unwrap()`
panic) and append it under `tarball_key/name`. -/
def tarFiles (tarball_key : String) (fs : String → Option (List Nat)) :
    List (String × String) → Option (List TarEntry)
  | [] => some []
  | (p, n) :: rest =>
    match fs p with
    | none => none
    | some data =>
      (tarFiles tarball_key fs rest).map
        (fun es => TarEntry.file (tarball_key ++ "/" ++ n) data :: es)

/-- Function `BuildContext::tarball_create`: one directory entry
`tarball_key/`, then one file entry per listed (path, name) pair. -/
def tarball_create (tarball_key : String)
    (contents : List (String × String)) (fs : String → Option (List Nat)) :
    Option (List TarEntry) :=
  (tarFiles tarball_key fs contents).map
    (fun es => TarEntry.dir (tarball_key ++ "/") :: es)

/-- Method `BuildContext::gen_booter`, restricted to the archive it
produces: every component except the booter `b` contributes its built
object (path under the build directory, stored under its canonical object
name); `tarkey` stands for the external `booter_tar_dirkey()`.  `none`
models the `unwrap` panics (booter missing from the map, unreadable
binary). -/
def gen_booter (bc : BuildContext) (b : String) (tarkey : String)
    (fs : String → Option (List Nat)) : Option (List TarEntry) :=
  match mapLookup bc.comps b with
  | none => none
  | some _ =>
    let tar_files := bc.comps.filterMap (fun p =>
      if p.1 == b then none
      else
        some (comp_build_obj_path bc.builddir p.2.comp_if p.2.comp_name
                p.2.var_name,
              comp_obj_name p.2.comp_if p.2.comp_name p.2.var_name))
    tarball_create tarkey tar_files fs

/-! ### Concrete fixtures (used by the witnesses below) -/

/-- Example client component: primary interface `pong`, no explicit
export, one dependency on `pongsrv` for `capmgr`. -/
def exPong : Component :=
  { name := "pong", img := "pong.pingpong", baseaddr := none,
    interfaces := [], deps := [⟨"capmgr", "pongsrv"⟩], params := none }

/-- Example server component explicitly exporting (capmgr, log). -/
def exPongsrv : Component :=
  { name := "pongsrv", img := "capmgr.srvimpl", baseaddr := none,
    interfaces := [⟨"capmgr", some "log"⟩], deps := [], params := none }

/-- The two-component example system. -/
def exComps : List Component := [exPong, exPongsrv]

/-- Example component depending on a server that does not exist. -/
def exLost : Component :=
  { name := "lost", img := "lost.impl", baseaddr := none,
    interfaces := [], deps := [⟨"x", "ghost"⟩], params := none }

/-- Example component with one declared startup parameter. -/
def exParamComp : Component :=
  { name := "pc", img := "pi.impl", baseaddr := none,
    interfaces := [], deps := [], params := some [⟨"k", "v"⟩] }

/-- Example server without explicit exports whose primary interface is
`capmgr`. -/
def exImplSrv : Component :=
  { name := "srv2", img := "capmgr.other", baseaddr := none,
    interfaces := [], deps := [], params := none }

/-- Example component with a malformed implementation identifier (no
dot). -/
def exBadSrv : Component :=
  { name := "bad", img := "nodots", baseaddr := none,
    interfaces := [], deps := [], params := none }

/-- The pass-one context of `exPong`. -/
def exCtxtPong1 : ComponentContext :=
  { comp_name := "pingpong", comp_if := "pong", var_name := "pong",
    base_addr := "0x00400000", initfs := none,
    params := some (ArgsKV.arr "params" []),
    interface_exports := [("pong", "stubs")], interface_deps := [],
    interface_servers := [("capmgr", "pongsrv")], library_deps := [] }

/-- The fully resolved context of `exPong` within `exComps`. -/
def exCtxtPongFull : ComponentContext :=
  { exCtxtPong1 with interface_deps := [("capmgr", "pongsrv", "log")] }

/-- The fully resolved context of `exPongsrv` within `exComps`. -/
def exCtxtPongsrv : ComponentContext :=
  { comp_name := "srvimpl", comp_if := "capmgr", var_name := "pongsrv",
    base_addr := "0x00400000", initfs := none,
    params := some (ArgsKV.arr "params" []),
    interface_exports := [("capmgr", "log")], interface_deps := [],
    interface_servers := [], library_deps := [] }

/-- The build context resolved from `exComps` (pwd `/pwd`, pid 7). -/
def exBCPong : BuildContext :=
  { comps := [("pong", exCtxtPongFull), ("pongsrv", exCtxtPongsrv)],
    booter := "pong", builddir := "/pwd/cos_build_7/" }

/-- The resolved context of `exLost` within `[exLost]`: one declared
dependency, zero resolved triples. -/
def exCtxtLost : ComponentContext :=
  { comp_name := "impl", comp_if := "lost", var_name := "lost",
    base_addr := "0x00400000", initfs := none,
    params := some (ArgsKV.arr "params" []),
    interface_exports := [("lost", "stubs")], interface_deps := [],
    interface_servers := [("x", "ghost")], library_deps := [] }

/-- The build context resolved from `[exLost]` (pwd `/pwd`, pid 1). -/
def exBCLost : BuildContext :=
  { comps := [("lost", exCtxtLost)], booter := "lost",
    builddir := "/pwd/cos_build_1/" }

/-- The resolved context of `exParamComp` within `[exParamComp]`. -/
def exCtxtPC : ComponentContext :=
  { comp_name := "impl", comp_if := "pi", var_name := "pc",
    base_addr := "0x00400000", initfs := none,
    params := some (ArgsKV.arr "params" [ArgsKV.key "k" "v"]),
    interface_exports := [("pi", "stubs")], interface_deps := [],
    interface_servers := [], library_deps := [] }

/-- The build context resolved from `[exParamComp]` (pwd `/pwd`, pid 2). -/
def exBCParam : BuildContext :=
  { comps := [("pc", exCtxtPC)], booter := "pc",
    builddir := "/pwd/cos_build_2/" }

/-- A reset oracle whose every attempt fails. -/
def rdFail : Nat → String → Except String Unit :=
  fun _ _ => Except.error "reset failed"

/-! ### Helper lemmas -/

/-- The export list computed by pass one, as a function of the input
component: the declared list, then possibly the synthesized primary
export. -/
theorem componentContext_new_exports (comp : Component) (i nm : String)
    (ctxt : ComponentContext)
    (hin : comp_interface_name comp.img = some (i, nm))
    (hnew : ComponentContext.new comp = some ctxt) :
    ctxt.interface_exports =
      comp.interfaces.map (fun ifs => (ifs.interface, ifs.variant.getD "stubs"))
      ++ (if !(comp.interfaces.any (fun ifs => ifs.interface == i))
             && i != "tests" && i != "no_interface"
          then [(i, "stubs")] else []) := by
  unfold ComponentContext.new at hnew
  rw [hin] at hnew
  simp only [Option.some.injEq] at hnew
  subst hnew
  cases hb : (!(comp.interfaces.any (fun ifs => ifs.interface == i))
      && i != "tests" && i != "no_interface") <;>
    simp [hb]

/-! ### C3 -/

/-- C3: pass one appends exactly one synthesized export
(primary interface, "stubs") when the declared export list omits the
primary interface and the primary interface is neither "tests" nor
"no_interface"; it appends nothing when the primary interface is declared,
and nothing when the primary interface is one of the two sentinels. -/
theorem C3_synthesized_primary_export (comp : Component) (i nm : String)
    (ctxt : ComponentContext)
    (hin : comp_interface_name comp.img = some (i, nm))
    (hnew : ComponentContext.new comp = some ctxt) :
    ((∀ e ∈ comp.interfaces, e.interface ≠ i) → i ≠ "tests" →
        i ≠ "no_interface" →
      ctxt.interface_exports =
        comp.interfaces.map
          (fun ifs => (ifs.interface, ifs.variant.getD "stubs"))
        ++ [(i, "stubs")])
    ∧ ((∃ e ∈ comp.interfaces, e.interface = i) →
      ctxt.interface_exports =
        comp.interfaces.map
          (fun ifs => (ifs.interface, ifs.variant.getD "stubs")))
    ∧ (i = "tests" ∨ i = "no_interface" →
      ctxt.interface_exports =
        comp.interfaces.map
          (fun ifs => (ifs.interface, ifs.variant.getD "stubs"))) := by
  have hx := componentContext_new_exports comp i nm ctxt hin hnew
  refine ⟨?_, ?_, ?_⟩
  · intro habs ht hn
    rw [hx]
    have hany : comp.interfaces.any (fun ifs => ifs.interface == i) = false := by
      simp only [List.any_eq_false, beq_iff_eq]
      exact habs
    simp [hany, ht, hn]
  · rintro ⟨e, he, hei⟩
    rw [hx]
    have hany : comp.interfaces.any (fun ifs => ifs.interface == i) = true := by
      simp only [List.any_eq_true, beq_iff_eq]
      exact ⟨e, he, hei⟩
    simp [hany]
  · intro hs
    rw [hx]
    rcases hs with hs | hs <;> simp [hs]

/-- Scanning a list whose prefix contains no match finds the first
matching element. -/
theorem find_first_match (dep : DepDecl) (pre post : List IfDecl)
    (e : IfDecl) (hpre : ∀ x ∈ pre, x.interface ≠ dep.interface)
    (he : e.interface = dep.interface) :
    (pre ++ e :: post).find?
        (fun inter => inter.interface == dep.interface) = some e := by
  induction pre with
  | nil =>
    simp [List.find?_cons, he]
  | cons x xs ih =>
    have hx : x.interface ≠ dep.interface := hpre x (by simp)
    have hxs : ∀ y ∈ xs, y.interface ≠ dep.interface := by
      intro y hy
      exact hpre y (by simp [hy])
    simpa [List.find?_cons, hx] using ih hxs

/-! ### C1 -/

/-- C1: when the dependency's server exists and its declared export list
contains an interface match, pass two records exactly one triple
(interface, server, variant of the first matching export in declaration
order, "stubs" when that export states no variant), and the result does
not depend on the exports after the first match. -/
theorem C1_explicit_export_resolution (comps : List Component)
    (dep : DepDecl) (srv : Component) (pre post : List IfDecl) (e : IfDecl)
    (hsrv : findSrv comps dep.srv = some srv)
    (hdecomp : srv.interfaces = pre ++ e :: post)
    (hpre : ∀ x ∈ pre, x.interface ≠ dep.interface)
    (he : e.interface = dep.interface) :
    resolveDep comps dep =
      some (some (dep.interface, dep.srv, e.variant.getD "stubs"))
    ∧ (∀ rest, passTwo comps (dep :: rest) =
        (passTwo comps rest).map
          (fun ts => (dep.interface, dep.srv, e.variant.getD "stubs") :: ts)) := by
  have hfind : srv.interfaces.find?
      (fun inter => inter.interface == dep.interface) = some e := by
    rw [hdecomp]
    exact find_first_match dep pre post e hpre he
  have hres : resolveDep comps dep =
      some (some (dep.interface, dep.srv, e.variant.getD "stubs")) := by
    simp [resolveDep, hsrv, hfind, he]
  refine ⟨hres, ?_⟩
  intro rest
  cases h : passTwo comps rest with
  | none => simp [passTwo, hres, h]
  | some ts => simp [passTwo, hres, h]

/-! ### C4 -/

/-- C4: when the dependency's server exists but none of its declared
exports matches the interface, pass two falls back to the server's primary
interface (the first segment of its implementation identifier): if it
equals the requested interface the triple (interface, server, "stubs") is
recorded; otherwise no triple is recorded for this dependency. -/
theorem C4_derived_implicit_resolution (comps : List Component)
    (dep : DepDecl) (srv : Component) (i nm : String)
    (hsrv : findSrv comps dep.srv = some srv)
    (hnone : ∀ x ∈ srv.interfaces, x.interface ≠ dep.interface)
    (hin : comp_interface_name srv.img = some (i, nm)) :
    (i = dep.interface →
      resolveDep comps dep = some (some (i, dep.srv, "stubs")))
    ∧ (i ≠ dep.interface → resolveDep comps dep = some none) := by
  have hfind : srv.interfaces.find?
      (fun inter => inter.interface == dep.interface) = none := by
    rw [List.find?_eq_none]
    intro x hx
    simpa using hnone x hx
  constructor
  · intro hi
    simp [resolveDep, hsrv, hfind, hin, hi]
  · intro hi
    simp [resolveDep, hsrv, hfind, hin, hi]

/-- Per-component validation succeeds exactly when the resolved-triple
count equals the declared-dependency count. -/
theorem validate_deps_ok_iff (c : ComponentContext) :
    c.validate_deps = Except.ok () ↔
      c.interface_deps.length = c.interface_servers.length := by
  unfold ComponentContext.validate_deps
  by_cases h : c.interface_deps.length = c.interface_servers.length <;>
    simp [h]

/-- Whole-system validation succeeds exactly when every component in the
mapping validates. -/
theorem buildContext_validate_ok_iff (bc : BuildContext) :
    bc.validate_deps = Except.ok () ↔
      ∀ p ∈ bc.comps, p.2.validate_deps = Except.ok () := by
  have key : (bc.comps.filterMap (fun p =>
      match p.2.validate_deps with
      | Except.ok _ => none
      | Except.error s => some s)) = [] ↔
      ∀ p ∈ bc.comps, p.2.validate_deps = Except.ok () := by
    rw [List.filterMap_eq_nil_iff]
    constructor
    · intro h p hp
      have hx := h p hp
      revert hx
      cases hv : p.2.validate_deps with
      | ok u => cases u; simp
      | error s => simp
    · intro h p hp
      rw [h p hp]
  rw [← key]
  unfold BuildContext.validate_deps
  by_cases h : (bc.comps.filterMap (fun p =>
      match p.2.validate_deps with
      | Except.ok _ => none
      | Except.error s => some s)) = []
  · simp [h]
  · simp [List.length_eq_zero, h]

/-- Each resolved dependency list is at most as long as the declared list,
and strictly shorter as soon as one declared dependency resolves to no
triple. -/
theorem passTwo_length (comps : List Component) (deps : List DepDecl)
    (ts : List (String × String × String))
    (h : passTwo comps deps = some ts) :
    ts.length ≤ deps.length
    ∧ ((∃ dep ∈ deps, resolveDep comps dep = some none) →
        ts.length < deps.length) := by
  induction deps generalizing ts with
  | nil =>
    simp [passTwo] at h
    subst h
    simp
  | cons d rest ih =>
    unfold passTwo at h
    cases hr : resolveDep comps d with
    | none => rw [hr] at h; exact absurd h (by simp)
    | some t =>
      rw [hr] at h
      cases hp : passTwo comps rest with
      | none => rw [hp] at h; exact absurd h (by simp)
      | some ts' =>
        rw [hp] at h
        simp only [Option.some.injEq] at h
        subst h
        obtain ⟨hle, hlt⟩ := ih ts' hp
        have htlen : t.toList.length ≤ 1 := by
          cases t <;> simp
        constructor
        · simp only [List.length_append, List.length_cons]
          omega
        · rintro ⟨dep, hdep, hres⟩
          rcases List.mem_cons.mp hdep with heq | hmem
          · subst heq
            rw [hres] at hr
            simp only [Option.some.injEq] at hr
            subst hr
            simp only [Option.toList_none, List.nil_append, List.length_cons]
            omega
          · have := hlt ⟨dep, hmem, hres⟩
            simp only [List.length_append, List.length_cons]
            omega

/-- Pass one copies the declared dependency records verbatim into
`interface_servers`. -/
theorem componentContext_new_servers (comp : Component)
    (ctxt : ComponentContext)
    (hnew : ComponentContext.new comp = some ctxt) :
    ctxt.interface_servers =
      comp.deps.map (fun dep => (dep.interface, dep.srv)) := by
  unfold ComponentContext.new at hnew
  cases hin : comp_interface_name comp.img with
  | none => rw [hin] at hnew; exact absurd hnew (by simp)
  | some p =>
    obtain ⟨i, nm⟩ := p
    rw [hin] at hnew
    simp only [Option.some.injEq] at hnew
    subst hnew
    cases comp.baseaddr <;> rfl

/-- The loop body of `BuildContext::new` fills `interface_deps` with the
pass-two result and leaves the pass-one fields unchanged. -/
theorem buildComponentContext_eq (comps : List Component) (c : Component)
    (ctxt : ComponentContext)
    (h : buildComponentContext comps c = some ctxt) :
    ∃ ctxt1 triples, ComponentContext.new c = some ctxt1
      ∧ passTwo comps c.deps = some triples
      ∧ ctxt = { ctxt1 with interface_deps := triples } := by
  unfold buildComponentContext at h
  cases h1 : ComponentContext.new c with
  | none => rw [h1] at h; exact absurd h (by simp)
  | some ctxt1 =>
    rw [h1] at h
    cases h2 : passTwo comps c.deps with
    | none => rw [h2] at h; exact absurd h (by simp)
    | some triples =>
      rw [h2] at h
      simp only [Option.some.injEq] at h
      exact ⟨ctxt1, triples, rfl, rfl, h.symm⟩

/-- Membership after an insert-or-replace: the element is the inserted
pair or was already present. -/
theorem mapInsert_mem (k : String) (v : ComponentContext)
    (m : List (String × ComponentContext)) (p : String × ComponentContext)
    (hp : p ∈ mapInsert k v m) : p = (k, v) ∨ p ∈ m := by
  induction m with
  | nil =>
    simp [mapInsert] at hp
    exact Or.inl hp
  | cons q rest ih =>
    unfold mapInsert at hp
    by_cases h1 : strLt k q.1 = true
    · rw [if_pos h1] at hp
      rcases List.mem_cons.mp hp with h | h
      · exact Or.inl h
      · exact Or.inr h
    · rw [if_neg h1] at hp
      by_cases h2 : k = q.1
      · rw [if_pos (by simp [h2])] at hp
        rcases List.mem_cons.mp hp with h | h
        · exact Or.inl h
        · exact Or.inr (List.mem_cons_of_mem q h)
      · rw [if_neg (by simp [h2])] at hp
        rcases List.mem_cons.mp hp with h | h
        · exact Or.inr (h ▸ List.mem_cons_self q rest)
        · rcases ih h with h' | h'
          · exact Or.inl h'
          · exact Or.inr (List.mem_cons_of_mem q h')

/-- Looking up the key just inserted yields the inserted value. -/
theorem mapInsert_lookup_self (k : String) (v : ComponentContext)
    (m : List (String × ComponentContext)) :
    mapLookup (mapInsert k v m) k = some v := by
  induction m with
  | nil => simp [mapInsert, mapLookup]
  | cons q rest ih =>
    unfold mapInsert
    by_cases h1 : strLt k q.1 = true
    · rw [if_pos h1]
      simp [mapLookup]
    · rw [if_neg h1]
      by_cases h2 : k = q.1
      · rw [if_pos (by simp [h2])]
        simp [mapLookup]
      · rw [if_neg (by simp [h2])]
        have hq : (q.1 == k) = false := by
          simp only [beq_eq_false_iff_ne, ne_eq]
          intro hc
          exact h2 hc.symm
        simp only [mapLookup, List.find?_cons, hq]
        exact ih

/-- Inserting under a different key does not change a lookup. -/
theorem mapInsert_lookup_other (k k' : String) (v : ComponentContext)
    (m : List (String × ComponentContext)) (hne : k' ≠ k) :
    mapLookup (mapInsert k v m) k' = mapLookup m k' := by
  induction m with
  | nil =>
    simp only [mapInsert, mapLookup, List.find?_cons, List.find?_nil]
    have : (k == k') = false := by
      simp only [beq_eq_false_iff_ne, ne_eq]
      exact fun hc => hne hc.symm
    simp [this]
  | cons q rest ih =>
    unfold mapInsert
    have hkk : (k == k') = false := by
      simp only [beq_eq_false_iff_ne, ne_eq]
      exact fun hc => hne hc.symm
    by_cases h1 : strLt k q.1 = true
    · rw [if_pos h1]
      simp only [mapLookup, List.find?_cons, hkk]
    · rw [if_neg h1]
      by_cases h2 : k = q.1
      · rw [if_pos (by simp [h2])]
        have hq : (q.1 == k') = false := by
          simp only [beq_eq_false_iff_ne, ne_eq]
          intro hc
          exact hne (by rw [← hc, h2])
        simp only [mapLookup, List.find?_cons, hkk, hq]
      · rw [if_neg (by simp [h2])]
        simp only [mapLookup, List.find?_cons]
        cases hq : (q.1 == k') with
        | true => rfl
        | false => exact ih

/-- Every entry of the map built by the component loop stems from a
component of the processed list (or was in the initial map). -/
theorem buildLoop_mem (comps : List Component) (l : List Component)
    (m m' : List (String × ComponentContext))
    (h : buildLoop comps l m = some m') (p : String × ComponentContext)
    (hp : p ∈ m') :
    p ∈ m ∨ ∃ c ∈ l, p.1 = c.name ∧
      buildComponentContext comps c = some p.2 := by
  induction l generalizing m with
  | nil =>
    simp only [buildLoop, Option.some.injEq] at h
    subst h
    exact Or.inl hp
  | cons c rest ih =>
    unfold buildLoop at h
    cases hc : buildComponentContext comps c with
    | none => rw [hc] at h; exact absurd h (by simp)
    | some ctxt =>
      rw [hc] at h
      rcases ih (mapInsert c.name ctxt m) h with hm | ⟨d, hd, hname, hctx⟩
      · rcases mapInsert_mem c.name ctxt m p hm with heq | hold
        · subst heq
          exact Or.inr ⟨c, by simp, rfl, hc⟩
        · exact Or.inl hold
      · exact Or.inr ⟨d, List.mem_cons_of_mem c hd, hname, hctx⟩

/-- The component loop leaves lookups of names not in the remaining list
unchanged. -/
theorem buildLoop_lookup_preserve (comps : List Component)
    (l : List Component) (m m' : List (String × ComponentContext))
    (k : String) (h : buildLoop comps l m = some m')
    (hk : ∀ c ∈ l, c.name ≠ k) :
    mapLookup m' k = mapLookup m k := by
  induction l generalizing m with
  | nil =>
    simp only [buildLoop, Option.some.injEq] at h
    subst h
    rfl
  | cons c rest ih =>
    unfold buildLoop at h
    cases hc : buildComponentContext comps c with
    | none => rw [hc] at h; exact absurd h (by simp)
    | some ctxt =>
      rw [hc] at h
      have h1 := ih (mapInsert c.name ctxt m) h
        (fun d hd => hk d (List.mem_cons_of_mem c hd))
      rw [h1]
      exact mapInsert_lookup_other c.name k ctxt m
        (fun hc' => hk c (by simp) hc'.symm)

/-- Under unique component names, the loop stores each component's
resolved context under its name. -/
theorem buildLoop_lookup (comps : List Component) (l : List Component)
    (m m' : List (String × ComponentContext)) (c : Component)
    (h : buildLoop comps l m = some m') (hc : c ∈ l)
    (hnd : (l.map Component.name).Nodup) :
    ∃ ctxt, buildComponentContext comps c = some ctxt ∧
      mapLookup m' c.name = some ctxt := by
  induction l generalizing m with
  | nil => exact absurd hc (by simp)
  | cons d rest ih =>
    unfold buildLoop at h
    cases hd : buildComponentContext comps d with
    | none => rw [hd] at h; exact absurd h (by simp)
    | some ctxt =>
      rw [hd] at h
      rcases List.mem_cons.mp hc with heq | hmem
      · subst heq
        refine ⟨ctxt, hd, ?_⟩
        have hrest : ∀ e ∈ rest, e.name ≠ c.name := by
          intro e he hne
          have : c.name ∈ rest.map Component.name := hne ▸
            List.mem_map_of_mem Component.name he
          simp only [List.map_cons, List.nodup_cons] at hnd
          exact hnd.1 this
        rw [buildLoop_lookup_preserve comps rest _ m' c.name h hrest]
        exact mapInsert_lookup_self c.name ctxt m
      · have hnd' : (rest.map Component.name).Nodup := by
          simp only [List.map_cons, List.nodup_cons] at hnd
          exact hnd.2
        exact ih _ h hmem hnd'

/-- A successful lookup exhibits a member of the association list. -/
theorem mapLookup_mem (m : List (String × ComponentContext)) (k : String)
    (v : ComponentContext) (h : mapLookup m k = some v) : (k, v) ∈ m := by
  unfold mapLookup at h
  cases hf : m.find? (fun p => p.1 == k) with
  | none => rw [hf] at h; exact absurd h (by simp)
  | some p =>
    rw [hf] at h
    simp at h
    have hmem := List.mem_of_find?_eq_some hf
    have hkey := List.find?_some hf
    simp only [beq_iff_eq] at hkey
    have : p = (k, v) := by
      obtain ⟨p1, p2⟩ := p
      simp only at hkey h
      rw [hkey, h]
    exact this ▸ hmem

/-! ### C2 -/

/-- C2: per-component validation succeeds iff the resolved-triple count
equals the declared-dependency count; whole-system validation succeeds iff
every component passes, and otherwise returns the concatenation of every
failing component's message; and a dependency record naming an absent
server yields no triple in pass two, so its component fails whole-system
validation. -/
theorem C2_dependency_validation :
    (∀ c : ComponentContext, c.validate_deps = Except.ok () ↔
      c.interface_deps.length = c.interface_servers.length)
    ∧ (∀ bc : BuildContext, bc.validate_deps = Except.ok () ↔
      ∀ p ∈ bc.comps, p.2.validate_deps = Except.ok ())
    ∧ (∀ bc : BuildContext,
      (¬ ∀ p ∈ bc.comps, p.2.validate_deps = Except.ok ()) →
      bc.validate_deps = Except.error
        ((bc.comps.filterMap (fun p =>
            match p.2.validate_deps with
            | Except.ok _ => none
            | Except.error s => some s)).foldl
          (fun agg e => agg ++ e) ""))
    ∧ (∀ (comps : List Component) (b pwd : String) (pid : Nat)
        (bc : BuildContext) (c : Component) (dep : DepDecl),
      BuildContext.new comps b pwd pid = some bc →
      (comps.map Component.name).Nodup →
      c ∈ comps → dep ∈ c.deps → findSrv comps dep.srv = none →
      resolveDep comps dep = some none
        ∧ bc.validate_deps ≠ Except.ok ()) := by
  refine ⟨validate_deps_ok_iff, buildContext_validate_ok_iff, ?_, ?_⟩
  · intro bc hfail
    have hne : bc.validate_deps ≠ Except.ok () := by
      intro hok
      exact hfail ((buildContext_validate_ok_iff bc).mp hok)
    unfold BuildContext.validate_deps at hne ⊢
    by_cases h : ((bc.comps.filterMap (fun p =>
        match p.2.validate_deps with
        | Except.ok _ => none
        | Except.error s => some s)).length == 0) = true
    · rw [if_pos h] at hne
      exact absurd rfl hne
    · rw [if_neg h]
  · intro comps b pwd pid bc c dep hnew hnd hc hdep hmiss
    have hres : resolveDep comps dep = some none := by
      simp [resolveDep, hmiss]
    refine ⟨hres, ?_⟩
    unfold BuildContext.new at hnew
    cases hloop : buildLoop comps comps [] with
    | none => rw [hloop] at hnew; exact absurd hnew (by simp)
    | some m =>
      rw [hloop] at hnew
      simp only [Option.some.injEq] at hnew
      obtain ⟨ctxt, hctx, hlk⟩ :=
        buildLoop_lookup comps comps [] m c hloop hc hnd
      obtain ⟨ctxt1, triples, hnew1, hpass, heq⟩ :=
        buildComponentContext_eq comps c ctxt hctx
      have hservers := componentContext_new_servers c ctxt1 hnew1
      have hlen := (passTwo_length comps c.deps triples hpass).2
        ⟨dep, hdep, hres⟩
      have hfail : ctxt.validate_deps ≠ Except.ok () := by
        intro hok'
        rw [validate_deps_ok_iff, heq] at hok'
        simp only [hservers, List.length_map] at hok'
        omega
      intro hok
      have hmem : (c.name, ctxt) ∈ bc.comps := by
        rw [← hnew]
        exact mapLookup_mem m c.name ctxt hlk
      exact hfail (((buildContext_validate_ok_iff bc).mp hok) _ hmem)

/-- Definition following the spec's words (Command Synthesizer): the
export or dependency list "rendered as a single token: interface/variant
pairs joined by a separator (`+`), each pair itself joined by `/`". -/
def specRenderPairs : List (String × String) → String
  | [] => ""
  | [p] => p.1 ++ "/" ++ p.2
  | p :: q :: rest => p.1 ++ "/" ++ p.2 ++ "+" ++ specRenderPairs (q :: rest)

/-- The tail of the token: every remaining pair preceded by `+`. -/
def plusStr : List (String × String) → String
  | [] => ""
  | p :: rest => "+" ++ p.1 ++ "/" ++ p.2 ++ plusStr rest

/-- After the first pair, the export fold appends `+pair` per element. -/
theorem renderExports_fold_eq (l : List (String × String)) (s : String) :
    (l.foldl
      (fun acc p =>
        let ifpath := acc.2
        let ifpath := if !acc.1 then ifpath ++ "+" else ifpath
        let ifpath := ifpath ++ p.1
        let ifpath := ifpath ++ "/"
        let ifpath := ifpath ++ p.2
        (false, ifpath))
      (false, s)).2 = s ++ plusStr l := by
  induction l generalizing s with
  | nil => simp [plusStr]
  | cons p rest ih =>
    simp only [List.foldl_cons, Bool.not_false, if_true, plusStr]
    rw [ih]
    simp [String.append_assoc]

/-- The spec-side token is the head pair followed by the `+`-tail. -/
theorem specRenderPairs_cons (l : List (String × String))
    (p : String × String) :
    specRenderPairs (p :: l) = p.1 ++ "/" ++ p.2 ++ plusStr l := by
  induction l generalizing p with
  | nil => simp [specRenderPairs, plusStr]
  | cons q rest ih =>
    simp only [specRenderPairs]
    rw [ih q]
    simp [plusStr, String.append_assoc]

/-- The export fold of `comp_gen_make_cmd` renders the spec-side token. -/
theorem renderExports_eq (l : List (String × String)) :
    renderExports l = specRenderPairs l := by
  cases l with
  | nil => rfl
  | cons p rest =>
    have h1 : renderExports (p :: rest) =
        (rest.foldl
          (fun acc q =>
            let ifpath := acc.2
            let ifpath := if !acc.1 then ifpath ++ "+" else ifpath
            let ifpath := ifpath ++ q.1
            let ifpath := ifpath ++ "/"
            let ifpath := ifpath ++ q.2
            (false, ifpath))
          (false, "" ++ p.1 ++ "/" ++ p.2)).2 := rfl
    rw [h1, renderExports_fold_eq rest ("" ++ p.1 ++ "/" ++ p.2),
      specRenderPairs_cons]
    simp [String.append_assoc]

/-- The dependency fold renders the same token over the
(interface, variant) projections of the triples. -/
theorem renderDeps_eq (l : List (String × String × String)) :
    renderDeps l = specRenderPairs (l.map (fun t => (t.1, t.2.2))) := by
  rw [← renderExports_eq]
  unfold renderDeps renderExports
  rw [List.foldl_map]

/-! ### C5 -/

/-- C5: the synthesized invocation renders export and dependency lists as
single `+`-joined tokens of `interface/variant` pairs, names the primary
interface, implementation name, variable name, full output path and base
address, carries `COMP_INITARGS_FILE` and `COMP_TAR_FILE` exactly when the
corresponding optional argument is present, and the base address of a
pass-one context is "0x00400000" whenever the specification declared
none. -/
theorem C5_make_cmd_contract :
    (∀ (c : ComponentContext) (builddir : String)
        (initargsfile tarfile : Option String),
      comp_gen_make_cmd c builddir initargsfile tarfile =
        "make -C ../ COMP_INTERFACES=\""
        ++ specRenderPairs c.interface_exports
        ++ "\" COMP_IFDEPS=\""
        ++ specRenderPairs (c.interface_deps.map (fun t => (t.1, t.2.2)))
        ++ "\" COMP_INTERFACE=" ++ c.comp_if
        ++ " COMP_NAME=" ++ c.comp_name
        ++ " COMP_VARNAME=" ++ c.var_name
        ++ " COMP_OUTPUT=" ++ builddir
        ++ c.comp_if ++ "." ++ c.comp_name ++ "." ++ c.var_name
        ++ " COMP_BASEADDR=" ++ c.base_addr
        ++ " "
        ++ (match initargsfile with
            | some s => "COMP_INITARGS_FILE=" ++ s ++ " "
            | none => "")
        ++ (match tarfile with
            | some s => "COMP_TAR_FILE=" ++ s ++ " "
            | none => "")
        ++ " component")
    ∧ (∀ (comp : Component) (ctxt : ComponentContext),
      ComponentContext.new comp = some ctxt → comp.baseaddr = none →
      ctxt.base_addr = "0x00400000") := by
  constructor
  · intro c builddir initargsfile tarfile
    unfold comp_gen_make_cmd comp_build_obj_path comp_obj_name
    rw [renderExports_eq, renderDeps_eq]
    simp [String.append_assoc]
  · intro comp ctxt hnew hbase
    unfold ComponentContext.new at hnew
    cases hin : comp_interface_name comp.img with
    | none => rw [hin] at hnew; exact absurd hnew (by simp)
    | some p =>
      obtain ⟨i, nm⟩ := p
      rw [hin, hbase] at hnew
      simp only [Option.some.injEq] at hnew
      subst hnew
      rfl

/-- When every listed path is readable, the tar loop produces one file
entry per pair, in order, with the pair's content. -/
theorem tarFiles_total (tarkey : String) (bin : String → List Nat)
    (l : List (String × String)) :
    tarFiles tarkey (fun p => some (bin p)) l =
      some (l.map (fun pn =>
        TarEntry.file (tarkey ++ "/" ++ pn.2) (bin pn.1))) := by
  induction l with
  | nil => rfl
  | cons pn rest ih =>
    obtain ⟨p, n⟩ := pn
    simp [tarFiles, ih]

/-! ### C6 -/

/-- C6: with every referenced binary present (file system
`fun p => some (bin p)`), the booter archive is exactly one directory
entry `tarkey/` followed by one file entry per non-booter component of the
mapping, named `tarkey/` + the canonical object name
`interface.implementation.varname`, with content equal to the built binary
at that component's output path; the booter itself contributes no
entry. -/
theorem C6_booter_archive (bc : BuildContext) (b tarkey : String)
    (bin : String → List Nat) (hb : (mapLookup bc.comps b).isSome) :
    gen_booter bc b tarkey (fun p => some (bin p)) =
      some (TarEntry.dir (tarkey ++ "/") ::
        bc.comps.filterMap (fun p =>
          if p.1 == b then none
          else some (TarEntry.file
            (tarkey ++ "/"
              ++ comp_obj_name p.2.comp_if p.2.comp_name p.2.var_name)
            (bin (comp_build_obj_path bc.builddir p.2.comp_if
              p.2.comp_name p.2.var_name))))) := by
  unfold gen_booter
  cases hlk : mapLookup bc.comps b with
  | none => rw [hlk] at hb; exact absurd hb (by simp)
  | some ctxt =>
    simp only [tarball_create, tarFiles_total, Option.map_some',
      Option.some.injEq, List.cons.injEq, true_and]
    rw [List.map_filterMap]
    apply List.filterMap_congr
    intro p _
    by_cases h : p.1 == b <;> simp [h]

/-! ### C7 -/

/-- C7: resolving the same immutable component list twice (same working
directory and process id) yields byte-identical per-component export
lists and dependency-triple lists, and identical synthesized command
strings. -/
theorem C7_resolution_deterministic (comps : List Component)
    (booter pwd : String) (pid : Nat) (bc1 bc2 : BuildContext)
    (h1 : BuildContext.new comps booter pwd pid = some bc1)
    (h2 : BuildContext.new comps booter pwd pid = some bc2) :
    bc1.comps = bc2.comps ∧ bc1.builddir = bc2.builddir
    ∧ (∀ n, (mapLookup bc1.comps n).map
          (fun c => c.interface_exports) =
        (mapLookup bc2.comps n).map (fun c => c.interface_exports))
    ∧ (∀ n, (mapLookup bc1.comps n).map (fun c => c.interface_deps) =
        (mapLookup bc2.comps n).map (fun c => c.interface_deps))
    ∧ (∀ n i t, (mapLookup bc1.comps n).map
          (fun c => comp_gen_make_cmd c bc1.builddir i t) =
        (mapLookup bc2.comps n).map
          (fun c => comp_gen_make_cmd c bc2.builddir i t)) := by
  rw [h1] at h2
  have heq : bc1 = bc2 := Option.some.inj h2
  subst heq
  exact ⟨rfl, rfl, fun n => rfl, fun n => rfl, fun n i t => rfl⟩

/-- Pass one always installs a parameter tree: an array node named
"params" holding one leaf per declared parameter. -/
theorem componentContext_new_params (comp : Component)
    (ctxt : ComponentContext)
    (hnew : ComponentContext.new comp = some ctxt) :
    ctxt.params = some (ArgsKV.new_arr "params"
      ((comp.params.getD []).map
        (fun q => ArgsKV.new_key q.name q.value))) := by
  unfold ComponentContext.new at hnew
  cases hin : comp_interface_name comp.img with
  | none => rw [hin] at hnew; exact absurd hnew (by simp)
  | some p =>
    obtain ⟨i, nm⟩ := p
    rw [hin] at hnew
    simp only [Option.some.injEq] at hnew
    subst hnew
    cases comp.baseaddr <;> rfl

/-- Refreshing the build directory never changes the component mapping. -/
theorem refresh_preserves_comps (rd : Nat → String → Except String Unit)
    (pwd : String) (bc : BuildContext) :
    (refresh_build_dir rd pwd bc).comps = bc.comps := by
  unfold refresh_build_dir
  cases rd 0 bc.builddir <;> rfl

/-! ### C9 -/

/-- C9: a failing build-directory reset is non-fatal: the context's build
directory becomes the current working directory with a trailing slash,
the component mapping is untouched, the outcome depends only on the
single (first) reset attempt, and the subsequent component builds run
against that fallback directory. -/
theorem C9_reset_failure_degrades (rd : Nat → String → Except String Unit)
    (pwd : String) (bc : BuildContext) (msg : String)
    (herr : rd 0 bc.builddir = Except.error msg) :
    (refresh_build_dir rd pwd bc).builddir = pwd ++ "/"
    ∧ (refresh_build_dir rd pwd bc).comps = bc.comps
    ∧ (∀ rd' : Nat → String → Except String Unit,
        rd' 0 bc.builddir = rd 0 bc.builddir →
        refresh_build_dir rd' pwd bc = refresh_build_dir rd pwd bc)
    ∧ (build_components rd pwd bc).1 = refresh_build_dir rd pwd bc
    ∧ (build_components rd pwd bc).2 = bc.comps.map (fun p =>
        let c := p.2
        let comp_path := comp_build_obj_path (pwd ++ "/") c.comp_if
          c.comp_name c.var_name
        let initargs_path : Option String :=
          match c.params with
          | some _ => some (comp_path ++ "_initargs.c")
          | none => none
        (p.1, initargs_path,
          comp_gen_make_cmd c (pwd ++ "/") initargs_path none)) := by
  have hre : refresh_build_dir rd pwd bc = { bc with builddir := pwd ++ "/" } := by
    unfold refresh_build_dir
    rw [herr]
  refine ⟨by rw [hre], refresh_preserves_comps rd pwd bc, ?_, rfl, ?_⟩
  · intro rd' hsame
    unfold refresh_build_dir
    rw [hsame]
  · unfold build_components
    rw [hre]

/-! ### C8 -/

/-- C8: after pass one every component context carries a parameter tree:
`params` is always `some`, holding an array node named "params" whose
children are the declared parameters (empty exactly when none were
declared); consequently `build_components` writes an initargs file (and
passes its path to the command) for every component. -/
theorem C8_params_tree_always_present (comps : List Component)
    (b pwd : String) (pid : Nat) (bc : BuildContext)
    (hnew : BuildContext.new comps b pwd pid = some bc) :
    (∀ p ∈ bc.comps, ∃ c ∈ comps, p.1 = c.name ∧
      p.2.params = some (ArgsKV.new_arr "params"
        ((c.params.getD []).map (fun q => ArgsKV.new_key q.name q.value)))
      ∧ ((c.params.getD []).map (fun q => ArgsKV.new_key q.name q.value)
          = [] ↔ c.params.getD [] = []))
    ∧ (∀ (rd : Nat → String → Except String Unit) (pwd2 : String)
        (e : String × Option String × String),
      e ∈ (build_components rd pwd2 bc).2 → e.2.1.isSome) := by
  have hmain : ∀ p ∈ bc.comps, ∃ c ∈ comps, p.1 = c.name ∧
      p.2.params = some (ArgsKV.new_arr "params"
        ((c.params.getD []).map (fun q => ArgsKV.new_key q.name q.value)))
      ∧ ((c.params.getD []).map (fun q => ArgsKV.new_key q.name q.value)
          = [] ↔ c.params.getD [] = []) := by
    intro p hp
    unfold BuildContext.new at hnew
    cases hloop : buildLoop comps comps [] with
    | none => rw [hloop] at hnew; exact absurd hnew (by simp)
    | some m =>
      rw [hloop] at hnew
      simp only [Option.some.injEq] at hnew
      rw [← hnew] at hp
      rcases buildLoop_mem comps comps [] m hloop p hp with hnil | ⟨c, hc, hname, hctx⟩
      · exact absurd hnil (by simp)
      · obtain ⟨ctxt1, triples, hnew1, _, heq⟩ :=
          buildComponentContext_eq comps c p.2 hctx
        have hparams := componentContext_new_params c ctxt1 hnew1
        refine ⟨c, hc, hname, ?_, by simp⟩
        rw [heq]
        exact hparams
  refine ⟨hmain, ?_⟩
  intro rd pwd2 e he
  unfold build_components at he
  simp only [List.mem_map] at he
  obtain ⟨p, hp, hpe⟩ := he
  rw [refresh_preserves_comps] at hp
  obtain ⟨c, _, _, hparams, _⟩ := hmain p hp
  subst hpe
  simp [hparams]

/-- Splitting yields one segment more than the number of separators. -/
theorem splitChar_length (sep : Char) (l : List Char) :
    (splitChar sep l).length = l.count sep + 1 := by
  induction l with
  | nil => rfl
  | cons c rest ih =>
    unfold splitChar
    cases h : splitChar sep rest with
    | nil => rw [h] at ih; simp at ih
    | cons seg segs =>
      rw [h] at ih
      simp only [List.length_cons] at ih
      by_cases hc : c = sep <;> simp [hc, List.count_cons, ih]

/-- The implementation-identifier split succeeds exactly when the
identifier contains exactly one dot. -/
theorem comp_interface_name_isSome_iff (img : String) :
    (comp_interface_name img).isSome ↔ img.data.count '.' = 1 := by
  unfold comp_interface_name
  have hlen := splitChar_length '.' img.data
  rcases h : splitChar '.' img.data with _ | ⟨a, _ | ⟨b, _ | ⟨c, t⟩⟩⟩ <;>
    rw [h] at hlen <;> simp at hlen ⊢ <;> omega

/-- Pass one succeeds exactly when the component's implementation
identifier contains exactly one dot. -/
theorem componentContext_new_isSome_iff (comp : Component) :
    (ComponentContext.new comp).isSome ↔
      comp.img.data.count '.' = 1 := by
  rw [← comp_interface_name_isSome_iff]
  unfold ComponentContext.new
  cases h : comp_interface_name comp.img with
  | none => simp
  | some p => obtain ⟨i, nm⟩ := p; simp

/-- Each pass-two dependency resolution succeeds when every component's
implementation identifier is well-formed. -/
theorem resolveDep_isSome (comps : List Component) (dep : DepDecl)
    (H : ∀ c ∈ comps, (comp_interface_name c.img).isSome) :
    (resolveDep comps dep).isSome := by
  unfold resolveDep
  cases hs : findSrv comps dep.srv with
  | none => simp
  | some srv =>
    cases hf : srv.interfaces.find?
        (fun inter => inter.interface == dep.interface) with
    | some inter => simp [hf]
    | none =>
      have hmem : srv ∈ comps := List.mem_of_find?_eq_some hs
      have hsome := H srv hmem
      cases hin : comp_interface_name srv.img with
      | none => rw [hin] at hsome; exact absurd hsome (by simp)
      | some p =>
        obtain ⟨i, nm⟩ := p
        by_cases h : i = dep.interface <;> simp [hf, hin, h]

/-- Pass two over a whole dependency list succeeds when every component's
implementation identifier is well-formed. -/
theorem passTwo_isSome (comps : List Component) (deps : List DepDecl)
    (H : ∀ c ∈ comps, (comp_interface_name c.img).isSome) :
    (passTwo comps deps).isSome := by
  induction deps with
  | nil => simp [passTwo]
  | cons d rest ih =>
    unfold passTwo
    have h1 := resolveDep_isSome comps d H
    cases hr : resolveDep comps d with
    | none => rw [hr] at h1; exact absurd h1 (by simp)
    | some t =>
      cases hp : passTwo comps rest with
      | none => rw [hp] at ih; exact absurd ih (by simp)
      | some ts => simp

/-- The component loop succeeds when every implementation identifier of
the component set (and of the processed sublist) is well-formed. -/
theorem buildLoop_isSome (comps : List Component) (l : List Component)
    (m : List (String × ComponentContext))
    (H : ∀ c ∈ comps, (comp_interface_name c.img).isSome)
    (Hl : ∀ c ∈ l, (comp_interface_name c.img).isSome) :
    (buildLoop comps l m).isSome := by
  induction l generalizing m with
  | nil => simp [buildLoop]
  | cons c rest ih =>
    unfold buildLoop
    have h1 : (ComponentContext.new c).isSome := by
      rw [componentContext_new_isSome_iff,
        ← comp_interface_name_isSome_iff]
      exact Hl c (by simp)
    cases hn : ComponentContext.new c with
    | none => rw [hn] at h1; exact absurd h1 (by simp)
    | some ctxt1 =>
      have h2 := passTwo_isSome comps c.deps H
      unfold buildComponentContext
      rw [hn]
      cases hp : passTwo comps c.deps with
      | none => rw [hp] at h2; exact absurd h2 (by simp)
      | some triples =>
        exact ih (mapInsert c.name { ctxt1 with interface_deps := triples } m)
          (fun d hd => Hl d (List.mem_cons_of_mem c hd))

/-- Conversely, a successful component loop had a successful pass one for
every component of the processed list. -/
theorem buildLoop_isSome_inv (comps : List Component) (l : List Component)
    (m m' : List (String × ComponentContext))
    (h : buildLoop comps l m = some m') :
    ∀ c ∈ l, (ComponentContext.new c).isSome := by
  induction l generalizing m with
  | nil => intro c hc; exact absurd hc (by simp)
  | cons d rest ih =>
    intro c hc
    unfold buildLoop at h
    cases hd : buildComponentContext comps d with
    | none => rw [hd] at h; exact absurd h (by simp)
    | some ctxt =>
      rw [hd] at h
      rcases List.mem_cons.mp hc with heq | hmem
      · subst heq
        obtain ⟨ctxt1, triples, hnew1, _, _⟩ :=
          buildComponentContext_eq comps c ctxt hd
        rw [hnew1]
        rfl
      · exact ih _ h c hmem

/-! ### C10 -/

/-- C10: the `comp_interface_name` assert makes construction partial:
pass one panics on any component whose implementation identifier does not
split into exactly two `.`-separated segments; the derived-implicit step
of pass two applies the same assertion to the dependency's server; and
whole build-context construction succeeds exactly when every component's
implementation identifier has exactly two segments. -/
theorem C10_construction_requires_two_segments :
    (∀ img : String, (comp_interface_name img).isSome ↔
      img.data.count '.' = 1)
    ∧ (∀ comp : Component, (ComponentContext.new comp).isSome ↔
      comp.img.data.count '.' = 1)
    ∧ (∀ (comps : List Component) (dep : DepDecl) (srv : Component),
      findSrv comps dep.srv = some srv →
      srv.interfaces.find?
        (fun inter => inter.interface == dep.interface) = none →
      comp_interface_name srv.img = none →
      resolveDep comps dep = none)
    ∧ (∀ (comps : List Component) (b pwd : String) (pid : Nat),
      (BuildContext.new comps b pwd pid).isSome ↔
        ∀ c ∈ comps, c.img.data.count '.' = 1) := by
  refine ⟨comp_interface_name_isSome_iff, componentContext_new_isSome_iff,
    ?_, ?_⟩
  · intro comps dep srv hs hf hin
    simp [resolveDep, hs, hf, hin]
  · intro comps b pwd pid
    constructor
    · intro hsome c hc
      unfold BuildContext.new at hsome
      cases hloop : buildLoop comps comps [] with
      | none => rw [hloop] at hsome; exact absurd hsome (by simp)
      | some m =>
        have := buildLoop_isSome_inv comps comps [] m hloop c hc
        rwa [componentContext_new_isSome_iff] at this
    · intro hall
      have H : ∀ c ∈ comps, (comp_interface_name c.img).isSome := by
        intro c hc
        rw [comp_interface_name_isSome_iff]
        exact hall c hc
      have := buildLoop_isSome comps comps [] H H
      unfold BuildContext.new
      cases hloop : buildLoop comps comps [] with
      | none => rw [hloop] at this; exact absurd this (by simp)
      | some m => simp

/-! ### Witnesses -/

/-- Witness for C1: in `exComps`, pong's dependency on `pongsrv` for
`capmgr` resolves to the explicitly exported variant `log`. -/
theorem C1_witness :
    resolveDep exComps ⟨"capmgr", "pongsrv"⟩ =
      some (some ("capmgr", "pongsrv", "log")) :=
  (C1_explicit_export_resolution exComps ⟨"capmgr", "pongsrv"⟩ exPongsrv
    [] [] ⟨"capmgr", some "log"⟩ (by rfl) (by rfl) (by simp) (by rfl)).1

/-- Witness for C2: the dependency of `exLost` on the absent server
`ghost` yields no triple and the resolved system fails validation. -/
theorem C2_witness :
    resolveDep [exLost] ⟨"x", "ghost"⟩ = some none
    ∧ exBCLost.validate_deps ≠ Except.ok () :=
  C2_dependency_validation.2.2.2 [exLost] "lost" "/pwd" 1 exBCLost exLost
    ⟨"x", "ghost"⟩ (by rfl) (by decide) (by decide) (by decide) (by rfl)

/-- Witness for C3: `exPong` declares no export, so pass one synthesizes
exactly the export (pong, stubs). -/
theorem C3_witness : exCtxtPong1.interface_exports = [("pong", "stubs")] :=
  (C3_synthesized_primary_export exPong "pong" "pingpong" exCtxtPong1
    (by rfl) (by rfl)).1 (by decide) (by decide) (by decide)

/-- Witness for C4: `exImplSrv` exports nothing explicitly but its primary
interface is `capmgr`, so the dependency resolves to the default
variant. -/
theorem C4_witness :
    resolveDep [exImplSrv] ⟨"capmgr", "srv2"⟩ =
      some (some ("capmgr", "srv2", "stubs")) :=
  (C4_derived_implicit_resolution [exImplSrv] ⟨"capmgr", "srv2"⟩ exImplSrv
    "capmgr" "other" (by rfl) (by decide) (by rfl)).1 (by rfl)

/-- Witness for C5: `exPong` declares no base address, so its context
carries the default. -/
theorem C5_witness : exCtxtPong1.base_addr = "0x00400000" :=
  C5_make_cmd_contract.2 exPong exCtxtPong1 (by rfl) (by rfl)

/-- Witness for C6: bundling `exBCPong` with booter `pong` packs exactly
the directory entry and pongsrv's binary under its canonical object
name. -/
theorem C6_witness :
    gen_booter exBCPong "pong" "binaries" (fun p => some [p.length]) =
      some [TarEntry.dir "binaries/",
        TarEntry.file "binaries/capmgr.srvimpl.pongsrv" [39]] :=
  C6_booter_archive exBCPong "pong" "binaries" (fun p => [p.length])
    (by rfl)

/-- Witness for C7: resolving `exComps` twice yields the same mapping. -/
theorem C7_witness : exBCPong.comps = exBCPong.comps :=
  (C7_resolution_deterministic exComps "pong" "/pwd" 7 exBCPong exBCPong
    (by rfl) (by rfl)).1

/-- Witness for C8: the context of `exParamComp` carries the parameter
tree with its one declared parameter. -/
theorem C8_witness :
    exCtxtPC.params =
      some (ArgsKV.new_arr "params" [ArgsKV.new_key "k" "v"]) := by
  obtain ⟨c, hc, hn, hp, hiff⟩ :=
    (C8_params_tree_always_present [exParamComp] "pc" "/pwd" 2 exBCParam
      (by rfl)).1 ("pc", exCtxtPC) (by simp [exBCParam])
  rw [List.mem_singleton] at hc
  subst hc
  exact hp

/-- Witness for C9: with every reset attempt failing, the build directory
degrades to the working directory with a trailing slash. -/
theorem C9_witness :
    (refresh_build_dir rdFail "/cwd" exBCPong).builddir = "/cwd/" :=
  (C9_reset_failure_degrades rdFail "/cwd" exBCPong "reset failed"
    (by rfl)).1

/-- Witness for C10: resolving a dependency against a found server whose
implementation identifier has no dot hits the assert (models a panic). -/
theorem C10_witness : resolveDep [exBadSrv] ⟨"x", "bad"⟩ = none :=
  C10_construction_requires_two_segments.2.2.1 [exBadSrv] ⟨"x", "bad"⟩
    exBadSrv (by rfl) (by rfl) (by rfl)

end Mkimg
